import Mathlib

/-!
Verification of the asset-synchronization script (scripts/update_assets.py).

The script maintains one CSV file per configured asset.  On each run, for each
asset it: picks the fetch period ("max" when the CSV file does not exist,
"2d" otherwise), fetches OHLCV rows from the provider, strips the timezone
from the returned index, and — when the file exists — reads the stored rows,
keeps only fetched rows whose date is not already stored, and either reports
"up-to-date" (empty filter result, no write) or appends the kept rows and
rewrites the whole file with numeric fields formatted as "%.8f".

The embedding below mirrors that control flow over explicit lists of bars.
A file on disk is `Option (List Bar)`: `none` means the file does not exist,
`some l` means it exists with data rows `l` (possibly empty, header only).
Numeric cells are rationals; writing a file rounds every numeric cell to
8 decimal places (`fmt8`), which is exactly what the "%.8f" format puts on
disk, and re-reading a written file recovers those rounded rationals exactly.
-/

namespace UpdateAssets

/-- A provider timestamp: a calendar date carrying a timezone annotation
(the provider returns a timezone-aware index; `tzOffset = none` is a naive
timestamp, as produced by `tz_localize(None)`). -/
structure RawTimestamp where
  date : Int
  tzOffset : Option Int
deriving DecidableEq

/-- One row as returned by the provider, after the column selection
`[["Open", "High", "Low", "Close", "Volume"]]`: a timezone-aware timestamp
plus the five numeric fields. -/
structure RawBar where
  ts : RawTimestamp
  openPrice : Rat
  high : Rat
  low : Rat
  close : Rat
  volume : Rat
deriving DecidableEq

/-- One stored row: a naive calendar date (no time-of-day, no timezone
component exists in this type) plus the five numeric fields. -/
structure Bar where
  date : Int
  openPrice : Rat
  high : Rat
  low : Rat
  close : Rat
  volume : Rat
deriving DecidableEq

/-- The two fetch periods the script ever requests: `period = "max" if not
csv_path.exists() else "2d"`. -/
inductive Period
  | max
  | twoDay
deriving DecidableEq

/-- The per-asset status line: `print(f"{name}: up-to-date")` or
`print(f"{name}: wrote {len(df_new)} new rows (total {len(combined)})")`. -/
inductive Report
  | upToDate
  | wrote (newCount : Nat) (total : Nat)
deriving DecidableEq

/-- Drop the timezone annotation, keeping the naive calendar date and the
five numeric fields: `df_new.index = df_new.index.tz_localize(None)`. -/
def normalize (rb : RawBar) : Bar :=
  { date := rb.ts.date, openPrice := rb.openPrice, high := rb.high,
    low := rb.low, close := rb.close, volume := rb.volume }

/-- The date column of a list of bars (the `Date` index). -/
def datesOf (l : List Bar) : List Int :=
  l.map Bar.date

/-- The fixed-point scale of the on-disk numeric format `"%.8f"`. -/
def scale : Int := 100000000

/-- The value that the format `"%.8f"` puts on disk for the cell `q`:
`q` rounded to the nearest multiple of 10⁻⁸ (computed with the executable
`Rat.floor`; `fmt8_eq_round` below restates it through `round`).  A decimal
string with 8 digits after the point is an exact rational, so re-reading the
file recovers exactly this value. -/
def fmt8 (q : Rat) : Rat :=
  (((q * (scale : Rat) + 1 / 2).floor : Int) : Rat) / (scale : Rat)

/-- One bar as it lands on disk: the date unchanged, every numeric field
formatted with `"%.8f"`. -/
def writeBar (b : Bar) : Bar :=
  { date := b.date, openPrice := fmt8 b.openPrice, high := fmt8 b.high,
    low := fmt8 b.low, close := fmt8 b.close, volume := fmt8 b.volume }

/-- The fetch-window selection `period = "max" if not csv_path.exists() else
"2d"` — the period depends only on whether the file exists, not on its
contents. -/
def choosePeriod (stored : Option (List Bar)) : Period :=
  if stored.isSome then Period.twoDay else Period.max

/-- Keep only fetched rows whose date is not already present in the stored
index: `df_new = df_new[~df_new.index.isin(df_old.index)]`. -/
def newRows (dfOld dfNew : List Bar) : List Bar :=
  dfNew.filter (fun b => decide (b.date ∉ datesOf dfOld))

/-- One run of the per-asset body of the main loop.  `stored` is the current
file (`none` = the CSV does not exist), `fetch` is the provider.  Returns the
resulting file and the printed status line.

* file absent: fetch the full history (`choosePeriod none = max`), write it
  verbatim (every numeric cell through the `"%.8f"` format);
* file present: fetch the 2-day window, drop rows whose date is stored,
  report up-to-date without writing when nothing is left, otherwise append
  the kept rows after the stored rows and rewrite the whole file. -/
def syncAsset : Option (List Bar) → (Period → List RawBar) → Option (List Bar) × Report
  | none, fetch =>
      let dfNew := (fetch (choosePeriod none)).map normalize
      (some (dfNew.map writeBar), Report.wrote dfNew.length dfNew.length)
  | some dfOld, fetch =>
      let dfNew := (fetch (choosePeriod (some dfOld))).map normalize
      let kept := newRows dfOld dfNew
      if kept.isEmpty then (some dfOld, Report.upToDate)
      else (some ((dfOld ++ kept).map writeBar),
            Report.wrote kept.length (dfOld ++ kept).length)

/-- Iterated runs of the script on one asset: each run sees the file the
previous run left behind, and may see a different provider response. -/
def runsFrom : Option (List Bar) → List (Period → List RawBar) → Option (List Bar)
  | stored, [] => stored
  | stored, f :: rest => runsFrom (syncAsset stored f).1 rest

/-! ### Failure model

The script has no try/except: a provider failure, a parse failure on the
stored CSV, or a write failure raises and terminates the whole process.
`syncAssetE` is `syncAsset` with those three failure points made explicit in
the order they occur in the loop body (fetch at line 40, read/parse at line
51, write at line 61); `runAssets` is the main loop, stopping at the first
uncaught failure with the store exactly as the preceding iterations left it. -/

/-- The three kinds of uncaught failure in the loop body. -/
inductive Err
  | provider
  | parse
  | write
deriving DecidableEq

/-- The data directory: one optional file per asset name. -/
def Store : Type := String → Option (List Bar)

/-- The loop body with explicit failure points.  `parseOk` tells whether
reading/parsing the existing CSV succeeds, `writeOk` whether the final
`to_csv` succeeds; the fetch itself may fail.  Failures happen exactly where
the script performs the corresponding call, and a failed write leaves the
store entry untouched (the whole-file rewrite either lands or raises). -/
def syncAssetE (fetch : Period → Except Err (List RawBar)) (parseOk writeOk : Bool)
    (stored : Option (List Bar)) : Except Err (Option (List Bar) × Report) :=
  match fetch (choosePeriod stored) with
  | Except.error e => Except.error e
  | Except.ok raw =>
    let dfNew := raw.map normalize
    match stored with
    | some dfOld =>
        if parseOk then
          let kept := newRows dfOld dfNew
          if kept.isEmpty then Except.ok (some dfOld, Report.upToDate)
          else if writeOk then
            Except.ok (some ((dfOld ++ kept).map writeBar),
                       Report.wrote kept.length (dfOld ++ kept).length)
          else Except.error Err.write
        else Except.error Err.parse
    | none =>
        if writeOk then
          Except.ok (some (dfNew.map writeBar), Report.wrote dfNew.length dfNew.length)
        else Except.error Err.write

/-- The main loop over the configured assets.  Processes assets in order;
the first failure stops everything, returning the store as already-processed
assets left it together with the failing asset and its error. -/
def runAssets (fetch : String → Period → Except Err (List RawBar))
    (parseOk writeOk : String → Bool) :
    List String → Store → Store × Option (String × Err)
  | [], fs => (fs, none)
  | n :: rest, fs =>
      match syncAssetE (fetch n) (parseOk n) (writeOk n) (fs n) with
      | Except.error e => (fs, some (n, e))
      | Except.ok (file', _) =>
          runAssets fetch parseOk writeOk rest (Function.update fs n file')

/-! ### Concrete fixtures used by witnesses and counterexamples -/

/-- A provider row for date `d` (timezone-aware, all numeric fields 1). -/
def exRawBar (d : Int) : RawBar :=
  ⟨⟨d, some 60⟩, 1, 1, 1, 1, 1⟩

/-- A provider row for date `d` with different numeric values (all 2),
modelling a provider correction for an already-stored date. -/
def exRawBarAlt (d : Int) : RawBar :=
  ⟨⟨d, some 60⟩, 2, 2, 2, 2, 2⟩

/-- A stored bar for date `d` (all numeric fields 1). -/
def exBar (d : Int) : Bar :=
  ⟨d, 1, 1, 1, 1, 1⟩

def c1Fetch : Period → List RawBar
  | Period.max => [exRawBar 1, exRawBar 2]
  | Period.twoDay => [exRawBar 2, exRawBar 3]

def c2Stored : List Bar := [exBar 1]

def c2Fetch : Period → List RawBar
  | Period.max => [exRawBar 1, exRawBar 2]
  | Period.twoDay => [exRawBar 2]

def c3Stored : List Bar := [exBar 1]

def c3Fetch : Period → List RawBar
  | Period.max => []
  | Period.twoDay => [exRawBarAlt 1, exRawBar 2]

def c4Fetch : Period → List RawBar
  | Period.max => [exRawBar 1, exRawBar 2]
  | Period.twoDay => []

def c5Stored : List Bar := [exBar 0]

def c5Fetch : Period → List RawBar
  | Period.max => []
  | Period.twoDay => [exRawBar 2, exRawBar 1]

def c5SortedFetch : Period → List RawBar
  | Period.max => []
  | Period.twoDay => [exRawBar 1, exRawBar 2]

def c9Stored : List Bar := [exBar 1]

def c9Fetch : Period → List RawBar
  | Period.max => []
  | Period.twoDay => [exRawBar 2]

/-- The file written by the run in the C9 witness. -/
def c9M : List Bar := ((syncAsset (some c9Stored) c9Fetch).1).getD []

def c10Fetch : Period → List RawBar
  | Period.max => []
  | Period.twoDay => [exRawBar 5]

def btcName : String := "btc"

def ethName : String := "eth"

def goldName : String := "gold"

/-- A provider that fails (network error) for the second asset only. -/
def c7Fetch : String → Period → Except Err (List RawBar) :=
  fun n p =>
    if n = ethName then Except.error Err.provider
    else Except.ok (c1Fetch p)

def c7ParseOk : String → Bool := fun _ => true

def c7WriteOk : String → Bool := fun _ => true

/-- An initially empty data directory. -/
def c7FS0 : Store := fun _ => none

/-- The store after successfully processing the first asset. -/
def c7FS1 : Store := (runAssets c7Fetch c7ParseOk c7WriteOk [btcName] c7FS0).1

/-! ### Basic lemmas about the building blocks -/

theorem ratFloor_eq_intFloor (q : Rat) : (q.floor : Int) = ⌊q⌋ :=
  (Rat.floor_def' q).trans Rat.floor_def.symm

theorem fmt8_eq_round (q : Rat) :
    fmt8 q = ((round (q * (scale : Rat)) : Int) : Rat) / (scale : Rat) := by
  rw [fmt8, ratFloor_eq_intFloor, round_eq]

theorem scale_cast_ne_zero : ((scale : Int) : Rat) ≠ 0 := by
  norm_num [scale]

theorem fmt8_scaled (q : Rat) : ∃ n : Int, fmt8 q = (n : Rat) / (scale : Rat) :=
  ⟨_, rfl⟩

theorem fmt8_idem (q : Rat) : fmt8 (fmt8 q) = fmt8 q := by
  rw [fmt8_eq_round, fmt8_eq_round]
  rw [div_mul_cancel₀ _ scale_cast_ne_zero, round_intCast]

theorem fmt8_of_mul_eq_intCast {q : Rat} {n : Int} (h : q * (scale : Rat) = (n : Rat)) :
    fmt8 q = q := by
  rw [fmt8_eq_round, h, round_intCast, ← h]
  exact mul_div_cancel_right₀ q scale_cast_ne_zero

theorem fmt8_intCast (m : Int) : fmt8 (m : Rat) = m :=
  fmt8_of_mul_eq_intCast
    (show ((m : Rat) * (scale : Rat)) = ((m * scale : Int) : Rat) by push_cast; ring)

theorem fmt8_one : fmt8 1 = 1 := by
  simpa using fmt8_intCast 1

theorem writeBar_idem (b : Bar) : writeBar (writeBar b) = writeBar b := by
  simp [writeBar, fmt8_idem]

theorem writeBar_date (b : Bar) : (writeBar b).date = b.date := rfl

theorem datesOf_append (l₁ l₂ : List Bar) :
    datesOf (l₁ ++ l₂) = datesOf l₁ ++ datesOf l₂ :=
  List.map_append _ _ _

theorem datesOf_map_writeBar (l : List Bar) :
    datesOf (l.map writeBar) = datesOf l := by
  simp only [datesOf, List.map_map]
  rfl

theorem mem_newRows {b : Bar} {dfOld dfNew : List Bar} :
    b ∈ newRows dfOld dfNew ↔ b ∈ dfNew ∧ b.date ∉ datesOf dfOld := by
  simp [newRows, List.mem_filter]

theorem newRows_sublist (dfOld dfNew : List Bar) :
    (newRows dfOld dfNew).Sublist dfNew :=
  List.filter_sublist _

theorem map_id_of_mem {α : Type} (f : α → α) :
    ∀ l : List α, (∀ a ∈ l, f a = a) → l.map f = l
  | [], _ => rfl
  | a :: l, h => by
      rw [List.map_cons, h a (List.mem_cons_self a l),
        map_id_of_mem f l (fun b hb => h b (List.mem_cons_of_mem a hb))]

theorem writeBar_exRawBar (d : Int) :
    writeBar (normalize (exRawBar d)) = normalize (exRawBar d) := by
  simp [writeBar, normalize, exRawBar, fmt8_one]

theorem writeBar_exBar (d : Int) : writeBar (exBar d) = exBar d := by
  simp [writeBar, exBar, fmt8_one]

/-! ### The claims -/

/-- Claim C4: for an asset with no existing history file, the run requests
the full available history (the "max" period), and the resulting file holds
exactly the fetched (normalized) bars — the dates in the provider's order
always, and the rows verbatim (with the printed counts equal to the fetched
row count) whenever the fetched values are representable in the 8-decimal
on-disk format, which is all the serialization ever changes. -/
theorem c4_first_run_completeness (f : Period → List RawBar) :
    choosePeriod none = Period.max ∧
    (syncAsset none f).1 = some (((f Period.max).map normalize).map writeBar) ∧
    datesOf (((f Period.max).map normalize).map writeBar) =
      datesOf ((f Period.max).map normalize) ∧
    ((∀ b ∈ (f Period.max).map normalize, writeBar b = b) →
      syncAsset none f =
        (some ((f Period.max).map normalize),
         Report.wrote (f Period.max).length (f Period.max).length)) := by
  refine ⟨rfl, rfl, datesOf_map_writeBar _, fun h => ?_⟩
  have hmap : ((f Period.max).map normalize).map writeBar = (f Period.max).map normalize :=
    map_id_of_mem writeBar _ h
  simp [syncAsset, choosePeriod, hmap, List.length_map]

/-- Witness for C4: the first run on a concrete two-bar full history writes
exactly those two bars and reports 2 new rows out of 2. -/
theorem c4_first_run_completeness_witness :
    syncAsset none c4Fetch =
      (some ((c4Fetch Period.max).map normalize),
       Report.wrote (c4Fetch Period.max).length (c4Fetch Period.max).length) :=
  (c4_first_run_completeness c4Fetch).2.2.2 (by
    intro b hb
    simp only [c4Fetch, List.map_cons, List.map_nil, List.mem_cons,
      List.not_mem_nil, or_false] at hb
    rcases hb with rfl | rfl
    · exact writeBar_exRawBar 1
    · exact writeBar_exRawBar 2)

/-- Claim C6: every fetched bar goes through `normalize` before being used:
the normalized bar keeps exactly the provider's calendar date, is entirely
independent of the timezone annotation the provider attached, and the date
persisted by the writer is still that plain calendar date. -/
theorem c6_naive_date_normalization (rb : RawBar) :
    (normalize rb).date = rb.ts.date ∧
    (∀ tz1 tz2 : Option Int,
        normalize ⟨⟨rb.ts.date, tz1⟩, rb.openPrice, rb.high, rb.low, rb.close, rb.volume⟩ =
        normalize ⟨⟨rb.ts.date, tz2⟩, rb.openPrice, rb.high, rb.low, rb.close, rb.volume⟩) ∧
    (writeBar (normalize rb)).date = rb.ts.date :=
  ⟨rfl, fun _ _ => rfl, rfl⟩

theorem syncAsset_upToDate {L : List Bar} {f : Period → List RawBar}
    (h : ∀ b ∈ (f Period.twoDay).map normalize, b.date ∈ datesOf L) :
    syncAsset (some L) f = (some L, Report.upToDate) := by
  have hk : newRows L ((f Period.twoDay).map normalize) = [] := by
    simp only [newRows]
    rw [List.filter_eq_nil_iff]
    intro a ha
    simp only [decide_eq_true_eq, Decidable.not_not]
    exact h a ha
  simp [syncAsset, choosePeriod, hk]

/-- Claim C2: running the loop body twice in succession against the same
provider data (the provider's 2-day window being a sub-table of its full
history, so both runs see one provider snapshot) makes the second run take
the empty-filter branch: it reports "up-to-date", writes nothing, and the
file component is exactly the file the first run left. -/
theorem c2_idempotence (stored : Option (List Bar)) (f : Period → List RawBar)
    (hsub : ∀ b ∈ (f Period.twoDay).map normalize,
        b.date ∈ datesOf ((f Period.max).map normalize)) :
    syncAsset (syncAsset stored f).1 f = ((syncAsset stored f).1, Report.upToDate) := by
  cases stored with
  | none =>
      show syncAsset (some (((f Period.max).map normalize).map writeBar)) f = _
      apply syncAsset_upToDate
      intro b hb
      rw [datesOf_map_writeBar]
      exact hsub b hb
  | some l =>
      rcases hke : newRows l ((f Period.twoDay).map normalize) with _ | ⟨b0, rest⟩
      · have h1 : syncAsset (some l) f = (some l, Report.upToDate) := by
          simp [syncAsset, choosePeriod, hke]
        rw [h1]
        exact h1
      · have h1 : syncAsset (some l) f =
            (some ((l ++ (b0 :: rest)).map writeBar),
             Report.wrote (b0 :: rest).length (l ++ (b0 :: rest)).length) := by
          simp [syncAsset, choosePeriod, hke]
        rw [h1]
        apply syncAsset_upToDate
        intro b hb
        rw [datesOf_map_writeBar, datesOf_append]
        by_cases hbl : b.date ∈ datesOf l
        · exact List.mem_append.mpr (Or.inl hbl)
        · have hbk : b ∈ newRows l ((f Period.twoDay).map normalize) :=
            mem_newRows.mpr ⟨hb, hbl⟩
          rw [hke] at hbk
          exact List.mem_append.mpr (Or.inr (List.mem_map_of_mem Bar.date hbk))

/-- Witness for C2: on a concrete stored file and provider snapshot, the
second of two back-to-back runs reports "up-to-date" and leaves the file of
the first run unchanged. -/
theorem c2_idempotence_witness :
    syncAsset (syncAsset (some c2Stored) c2Fetch).1 c2Fetch =
      ((syncAsset (some c2Stored) c2Fetch).1, Report.upToDate) :=
  c2_idempotence (some c2Stored) c2Fetch (by decide)

/-- Claim C3: a fetched bar whose date is already stored — whatever its
numeric values — is dropped by the filter: it never reaches the kept rows,
every kept row's date is absent from the stored index, and the written file
is the stored rows (only re-serialized) followed by the kept rows, so the
stored row for the duplicated date is never replaced (append-new-dates-only,
no upsert). -/
theorem c3_append_only_no_upsert (l : List Bar) (f : Period → List RawBar) (b : Bar)
    (_hb : b ∈ (f Period.twoDay).map normalize) (hdup : b.date ∈ datesOf l) :
    b ∉ newRows l ((f Period.twoDay).map normalize) ∧
    (∀ b' ∈ newRows l ((f Period.twoDay).map normalize), b'.date ∉ datesOf l) ∧
    ((syncAsset (some l) f).1 = some l ∨
      (syncAsset (some l) f).1 =
        some (l.map writeBar ++
          (newRows l ((f Period.twoDay).map normalize)).map writeBar)) := by
  refine ⟨fun hmem => (mem_newRows.mp hmem).2 hdup,
    fun b' h => (mem_newRows.mp h).2, ?_⟩
  rcases hke : newRows l ((f Period.twoDay).map normalize) with _ | ⟨b0, rest⟩
  · left
    simp [syncAsset, choosePeriod, hke]
  · right
    simp [syncAsset, choosePeriod, hke, List.map_append]

/-- Witness for C3: a provider correction (different numeric values) for the
already-stored date 1 is dropped, and the file keeps the stored row for
date 1. -/
theorem c3_append_only_no_upsert_witness :
    normalize (exRawBarAlt 1) ∉ newRows c3Stored ((c3Fetch Period.twoDay).map normalize) ∧
    ((syncAsset (some c3Stored) c3Fetch).1 = some c3Stored ∨
      (syncAsset (some c3Stored) c3Fetch).1 =
        some (c3Stored.map writeBar ++
          (newRows c3Stored ((c3Fetch Period.twoDay).map normalize)).map writeBar)) :=
  ⟨(c3_append_only_no_upsert c3Stored c3Fetch (normalize (exRawBarAlt 1))
      (List.mem_cons_self _ _) (by decide)).1,
   (c3_append_only_no_upsert c3Stored c3Fetch (normalize (exRawBarAlt 1))
      (List.mem_cons_self _ _) (by decide)).2.2⟩

/-- Claim C9: a run that appends (reports written rows) produces exactly the
previously stored rows — unchanged when they were already in on-disk format,
in the same order, none removed — followed by the kept new rows; the printed
counts are the kept-row count and the combined total. -/
theorem c9_append_frame (l : List Bar) (f : Period → List RawBar) (m : List Bar) (k t : Nat)
    (h : syncAsset (some l) f = (some m, Report.wrote k t)) :
    m = l.map writeBar ++ (newRows l ((f Period.twoDay).map normalize)).map writeBar ∧
    k = (newRows l ((f Period.twoDay).map normalize)).length ∧
    t = l.length + (newRows l ((f Period.twoDay).map normalize)).length ∧
    (l.map writeBar = l →
      m.take l.length = l ∧
      m.drop l.length = (newRows l ((f Period.twoDay).map normalize)).map writeBar) := by
  rcases hke : newRows l ((f Period.twoDay).map normalize) with _ | ⟨b0, rest⟩
  · simp [syncAsset, choosePeriod, hke] at h
  · have h1 : syncAsset (some l) f =
        (some ((l ++ (b0 :: rest)).map writeBar),
         Report.wrote (b0 :: rest).length (l ++ (b0 :: rest)).length) := by
      simp [syncAsset, choosePeriod, hke]
    rw [h1] at h
    have hm : m = (l ++ (b0 :: rest)).map writeBar := by
      have := congrArg Prod.fst h
      simpa using this.symm
    have hkt : Report.wrote (b0 :: rest).length (l ++ (b0 :: rest)).length =
        Report.wrote k t := congrArg Prod.snd h
    have hk : k = (b0 :: rest).length := (Report.wrote.injEq _ _ _ _ ▸ hkt).1.symm
    have ht : t = l.length + (b0 :: rest).length := by
      have := (Report.wrote.injEq _ _ _ _ ▸ hkt).2.symm
      simpa [List.length_append] using this
    subst hm
    refine ⟨List.map_append _ _ _, hk, ht, fun hmap => ?_⟩
    rw [List.map_append, hmap]
    constructor
    · exact List.take_left l ((b0 :: rest).map writeBar)
    · exact List.drop_left l ((b0 :: rest).map writeBar)

/-- Witness for C9: a concrete appending run whose file is the stored row
followed by the one kept new row, with counts 1 and 2. -/
theorem c9_append_frame_witness :
    c9M = c9Stored.map writeBar ++
        (newRows c9Stored ((c9Fetch Period.twoDay).map normalize)).map writeBar ∧
    c9M.take c9Stored.length = c9Stored ∧
    c9M.drop c9Stored.length =
      (newRows c9Stored ((c9Fetch Period.twoDay).map normalize)).map writeBar := by
  have h := c9_append_frame c9Stored c9Fetch c9M 1 2 rfl
  have hmap : c9Stored.map writeBar = c9Stored := by
    simp [c9Stored, writeBar_exBar]
  exact ⟨h.1, (h.2.2.2 hmap).1, (h.2.2.2 hmap).2⟩

/-- Claim C8: every numeric cell lands on disk as an integer multiple of
10⁻⁸ (exactly 8 digits after the decimal point), re-serializing a re-read
value changes nothing (no drift across write/read cycles), a value such as
close = 42.1 survives the round-trip exactly, and writing preserves the date
column, so re-read dates still work as the uniqueness key. -/
theorem c8_numeric_format_roundtrip :
    (∀ q : Rat, ∃ n : Int, fmt8 q = (n : Rat) / (scale : Rat)) ∧
    (∀ q : Rat, fmt8 (fmt8 q) = fmt8 q) ∧
    fmt8 (421 / 10) = 421 / 10 ∧
    (∀ b : Bar, writeBar (writeBar b) = writeBar b) ∧
    (∀ b : Bar, (writeBar b).date = b.date) ∧
    (∀ l : List Bar, datesOf (l.map writeBar) = datesOf l) := by
  refine ⟨fmt8_scaled, fmt8_idem, ?_, writeBar_idem, writeBar_date, datesOf_map_writeBar⟩
  exact fmt8_of_mul_eq_intCast
    (show ((421 / 10 : Rat) * (scale : Rat)) = ((4210000000 : Int) : Rat) by
      norm_num [scale])

theorem syncAsset_nodup {stored : Option (List Bar)} {f : Period → List RawBar}
    (h0 : ∀ l, stored = some l → (datesOf l).Nodup)
    (hf : ∀ p, (datesOf ((f p).map normalize)).Nodup) :
    ∀ m, (syncAsset stored f).1 = some m → (datesOf m).Nodup := by
  intro m hm
  cases stored with
  | none =>
      have hme : m = ((f Period.max).map normalize).map writeBar := by
        simpa [syncAsset, choosePeriod] using hm.symm
      rw [hme, datesOf_map_writeBar]
      exact hf Period.max
  | some l =>
      rcases hke : newRows l ((f Period.twoDay).map normalize) with _ | ⟨b0, rest⟩
      · have hme : m = l := by
          simpa [syncAsset, choosePeriod, hke] using hm.symm
        rw [hme]
        exact h0 l rfl
      · have hme : m = (l ++ (b0 :: rest)).map writeBar := by
          simpa [syncAsset, choosePeriod, hke] using hm.symm
        rw [hme, datesOf_map_writeBar, datesOf_append]
        apply List.nodup_append.mpr
        refine ⟨h0 l rfl, ?_, ?_⟩
        · have hsubl : (b0 :: rest).Sublist ((f Period.twoDay).map normalize) := by
            rw [← hke]
            exact newRows_sublist _ _

          exact (hf Period.twoDay).sublist (hsubl.map Bar.date)
        · intro d hd1 hd2
          rcases List.mem_map.mp hd2 with ⟨b, hbmem, rfl⟩
          have hbk : b ∈ newRows l ((f Period.twoDay).map normalize) := by
            rw [hke]
            exact hbmem
          exact (mem_newRows.mp hbk).2 hd1

/-- Claim C1: starting from any file whose dates are unique (in particular
from no file at all) and running the script any number of times, with every
provider response having unique dates (the provider returns a time-indexed
table), the persisted file never contains two bars with the same date: the
date-membership filter together with the first-run verbatim write preserves
date uniqueness across all runs. -/
theorem c1_no_duplicate_dates (fs : List (Period → List RawBar))
    (stored : Option (List Bar))
    (h0 : ∀ l, stored = some l → (datesOf l).Nodup)
    (hf : ∀ f ∈ fs, ∀ p, (datesOf ((f p).map normalize)).Nodup) :
    ∀ m, runsFrom stored fs = some m → (datesOf m).Nodup := by
  induction fs generalizing stored with
  | nil => exact fun m hm => h0 m hm
  | cons f rest ih =>
      intro m hm
      refine ih (syncAsset stored f).1 ?_ ?_ m hm
      · intro l hl
        exact syncAsset_nodup h0 (hf f (List.mem_cons_self f rest)) l hl
      · intro g hg p
        exact hf g (List.mem_cons_of_mem f hg) p

/-- Witness for C1: two successive concrete runs (first run writes the full
history, second run appends one trailing bar) end with a file whose dates
are pairwise distinct. -/
theorem c1_no_duplicate_dates_witness :
    (datesOf ((runsFrom none [c1Fetch, c1Fetch]).getD [])).Nodup :=
  c1_no_duplicate_dates [c1Fetch, c1Fetch] none (fun _ h => nomatch h)
    (by
      intro f hf p
      rcases List.mem_cons.mp hf with rfl | hf
      · cases p <;> decide
      · rcases List.mem_cons.mp hf with rfl | hf
        · cases p <;> decide
        · cases hf)
    _ rfl

/-- Counterexample to C5 as stated: with the stored history date-sorted and
every kept new bar's date exceeding every stored date — the exact hypotheses
the claim gives — the file written by the run can still fail to be sorted by
date, because the fetched rows themselves arrive out of order and nothing
re-sorts them. -/
theorem c5_counterexample :
    List.Sorted (· < ·) (datesOf c5Stored) ∧
    (∀ b ∈ newRows c5Stored ((c5Fetch Period.twoDay).map normalize),
        ∀ d ∈ datesOf c5Stored, d < b.date) ∧
    ((syncAsset (some c5Stored) c5Fetch).1).isSome = true ∧
    ¬ List.Sorted (· < ·)
        (datesOf (((syncAsset (some c5Stored) c5Fetch).1).getD [])) := by
  decide

/-- Claim C5 (amended): if additionally the kept new rows are themselves in
strictly increasing date order — as a trailing-window fetch from a
time-sorted provider table delivers them — then the file after the run is in
strictly increasing date order, i.e. its row order equals the
sorted-by-date order; the concatenation performs no re-sort. -/
theorem c5_monotonic_order (l : List Bar) (f : Period → List RawBar)
    (hl : List.Sorted (· < ·) (datesOf l))
    (hgt : ∀ b ∈ newRows l ((f Period.twoDay).map normalize),
        ∀ d ∈ datesOf l, d < b.date)
    (hnew : List.Sorted (· < ·)
        (datesOf (newRows l ((f Period.twoDay).map normalize)))) :
    ∀ m, (syncAsset (some l) f).1 = some m → List.Sorted (· < ·) (datesOf m) := by
  intro m hm
  rcases hke : newRows l ((f Period.twoDay).map normalize) with _ | ⟨b0, rest⟩
  · have hme : m = l := by
      simpa [syncAsset, choosePeriod, hke] using hm.symm
    rw [hme]
    exact hl
  · have hme : m = (l ++ (b0 :: rest)).map writeBar := by
      simpa [syncAsset, choosePeriod, hke] using hm.symm
    rw [hme, datesOf_map_writeBar, datesOf_append]
    apply List.pairwise_append.mpr
    refine ⟨hl, ?_, ?_⟩
    · rw [hke] at hnew
      exact hnew
    · intro a ha d hd
      rcases List.mem_map.mp hd with ⟨bar, hbar, rfl⟩
      refine hgt bar ?_ a ha
      rw [hke]
      exact hbar

/-- Witness for the amended C5: a concrete run whose kept rows arrive in
increasing date order ends with a strictly date-sorted file. -/
theorem c5_monotonic_order_witness :
    List.Sorted (· < ·)
      (datesOf (((syncAsset (some c5Stored) c5SortedFetch).1).getD [])) :=
  c5_monotonic_order c5Stored c5SortedFetch (by decide) (by decide) (by decide) _ rfl

theorem runAssets_append (F : String → Period → Except Err (List RawBar))
    (P W : String → Bool) (l₁ l₂ : List String) (fs : Store) :
    runAssets F P W (l₁ ++ l₂) fs =
      match runAssets F P W l₁ fs with
      | (fs', none) => runAssets F P W l₂ fs'
      | (fs', some e) => (fs', some e) := by
  induction l₁ generalizing fs with
  | nil => rfl
  | cons n rest ih =>
      show runAssets F P W (n :: (rest ++ l₂)) fs = _
      cases hsync : syncAssetE (F n) (P n) (W n) (fs n) with
      | error e => simp [runAssets, hsync]
      | ok res =>
          rcases res with ⟨file', rep⟩
          simp only [runAssets, hsync]
          exact ih (Function.update fs n file')

theorem runAssets_untouched (F : String → Period → Except Err (List RawBar))
    (P W : String → Bool) :
    ∀ (names : List String) (fs : Store) (m : String), m ∉ names →
      (runAssets F P W names fs).1 m = fs m := by
  intro names
  induction names with
  | nil => intro fs m _; rfl
  | cons n rest ih =>
      intro fs m hm
      have hmn : m ≠ n := fun hc => hm (hc ▸ List.mem_cons_self n rest)
      have hmr : m ∉ rest := fun hc => hm (List.mem_cons_of_mem n hc)
      cases hsync : syncAssetE (F n) (P n) (W n) (fs n) with
      | error e => simp [runAssets, hsync]
      | ok res =>
          rcases res with ⟨file', rep⟩
          simp only [runAssets, hsync]
          rw [ih (Function.update fs n file') m hmr]
          exact Function.update_noteq hmn file' fs

/-- Claim C7: a failure while processing one asset — provider failure, parse
failure on its stored file, or write failure — terminates the whole run
uncaught: the run's result is exactly the store produced by the successfully
processed preceding assets together with the failing asset's error; the
failing asset's file and all following assets' files are untouched (still
exactly their initial state), and no partial file is produced. -/
theorem c7_failure_terminates_run (F : String → Period → Except Err (List RawBar))
    (P W : String → Bool) (pre post : List String) (n : String)
    (fs0 fs1 : Store) (e : Err)
    (hpre : runAssets F P W pre fs0 = (fs1, none))
    (herr : syncAssetE (F n) (P n) (W n) (fs1 n) = Except.error e) :
    runAssets F P W (pre ++ n :: post) fs0 = (fs1, some (n, e)) ∧
    (∀ m, m ∉ pre → fs1 m = fs0 m) := by
  constructor
  · rw [runAssets_append, hpre]
    simp [runAssets, herr]
  · intro m hm
    have hu := runAssets_untouched F P W pre fs0 m hm
    rw [hpre] at hu
    exact hu

/-- Witness for C7: three assets; the provider fails on the second.  The
first asset's file is written, the run stops with the provider error, and
the second and third assets' entries still have their initial value. -/
theorem c7_failure_terminates_run_witness :
    runAssets c7Fetch c7ParseOk c7WriteOk [btcName, ethName, goldName] c7FS0 =
      (c7FS1, some (ethName, Err.provider)) ∧
    c7FS1 ethName = c7FS0 ethName ∧
    c7FS1 goldName = c7FS0 goldName := by
  have h := c7_failure_terminates_run c7Fetch c7ParseOk c7WriteOk [btcName] [goldName]
    ethName c7FS0 c7FS1 Err.provider rfl rfl
  exact ⟨h.1, h.2 ethName (by decide), h.2 goldName (by decide)⟩

/-- Claim C10: when no file exists and the provider's full-history response
is empty, the run does not fail: it writes a header-only file (zero data
rows) and reports 0 new rows (total 0).  The file now exists, and the
existence check looks only at the file — not its contents — so every
subsequent run (whose input file always exists, since a run on an existing
file always leaves a file) picks the 2-day trailing window; the full history
is never requested again. -/
theorem c10_empty_first_fetch (f : Period → List RawBar) (h : f Period.max = []) :
    syncAsset none f = (some [], Report.wrote 0 0) ∧
    choosePeriod ((syncAsset none f).1) = Period.twoDay ∧
    (∀ (l : List Bar) (g : Period → List RawBar),
        ((syncAsset (some l) g).1).isSome = true) ∧
    (∀ stored : Option (List Bar), stored.isSome = true →
        choosePeriod stored = Period.twoDay) := by
  refine ⟨?_, ?_, ?_, ?_⟩
  · simp [syncAsset, choosePeriod, h]
  · simp [syncAsset, choosePeriod, h]
  · intro l g
    rcases hke : newRows l ((g Period.twoDay).map normalize) with _ | ⟨b0, rest⟩
    · simp [syncAsset, choosePeriod, hke]
    · simp [syncAsset, choosePeriod, hke]
  · intro stored hs
    rcases stored with _ | l
    · simp at hs
    · simp [choosePeriod]

/-- Witness for C10: a concrete provider with an empty full history: the
first run writes an empty file reporting 0 rows, and the next run sees an
existing file, hence the 2-day period. -/
theorem c10_empty_first_fetch_witness :
    syncAsset none c10Fetch = (some [], Report.wrote 0 0) ∧
    choosePeriod ((syncAsset none c10Fetch).1) = Period.twoDay ∧
    ((syncAsset (some []) c10Fetch).1).isSome = true :=
  ⟨(c10_empty_first_fetch c10Fetch rfl).1,
   (c10_empty_first_fetch c10Fetch rfl).2.1,
   (c10_empty_first_fetch c10Fetch rfl).2.2.1 [] c10Fetch⟩

end UpdateAssets
